import Mathlib

/-!
Verification of the Clipping-API clip-assembly pipeline.

This file shallow-embeds the core of the repository in Lean 4:

* `app/buffer_index.py`   — the Segment Index (`find_segments`, `snap_to_keyframe`);
* `app/mediamtx_client.py`— Segment Discovery (`find_clips`, `_extract_clip_info`);
* `app/clip_processor.py` — the Assembly Planner (`process_clip`,
  `_process_mediamtx_clips`);
* `app/job_manager.py`    — the Job Coordinator (`update_job_status`, `submit_job`,
  the worker loop).

Modelling conventions:

* Python `datetime` / `timedelta` / `float` arithmetic is modelled exactly over `ℚ`
  (timestamps are seconds; `(a - b).total_seconds()` is plain subtraction).
* Python calls that can raise are modelled with `Except String`; a `try/except`
  block becomes a `match` on the `Except` value.
* Filesystem and subprocess effects are oracles passed in as explicit data: a file
  is a record of the results its `os.stat` / `os.path.getsize` calls would return,
  and the transcoder invocation is an `FfmpegOutcome` describing how
  `subprocess.run` ended.
* Python's `min(xs, key=f)` / `max(xs)` / `min(xs)` keep the first optimum of the
  iteration; `pyMinBy`, `pyMax`, `pyMin` reproduce that exactly.
-/

deriving instance DecidableEq for Except

section ClippingAPI

attribute [local semireducible] Rat.add Rat.sub Rat.mul Rat.inv

set_option maxRecDepth 8000

/-- Python built-in `abs` on an exact rational value. -/
def pyAbs (x : ℚ) : ℚ :=
  if x < 0 then -x else x

/-- Python two-argument `max(a, b)`: returns `b` only when it is strictly
larger, so the first argument wins ties. -/
def pyMax2 (a b : ℚ) : ℚ :=
  if a < b then b else a

/-- Python `min(xs)`: `none` on an empty list (Python raises `ValueError`),
otherwise the fold that replaces the accumulator only on a strictly smaller
element, so the first minimum of the iteration wins. -/
def pyMin (xs : List ℚ) : Option ℚ :=
  match xs with
  | [] => none
  | x :: rest => some (rest.foldl (fun acc y => if y < acc then y else acc) x)

/-- Python `max(xs)`: `none` on an empty list, otherwise the first maximum of
the iteration. -/
def pyMax (xs : List ℚ) : Option ℚ :=
  match xs with
  | [] => none
  | x :: rest => some (rest.foldl (fun acc y => if acc < y then y else acc) x)

/-- Python `min(xs, key=key)`: `none` on an empty list, otherwise the element
whose key is minimal, the first such element of the iteration winning ties
(`min` replaces its candidate only when the new key is strictly smaller). -/
def pyMinBy (key : ℚ → ℚ) (xs : List ℚ) : Option ℚ :=
  match xs with
  | [] => none
  | x :: rest => some (rest.foldl (fun acc y => if key y < key acc then y else acc) x)

/-- Python `int(q)` for a rational `q`: truncation toward zero
(`q.num / q.den` with integer T-division). -/
def pyInt (q : ℚ) : ℤ :=
  Int.tdiv q.num (q.den : ℤ)

/-- Python `dict.get` / `in` on a dict modelled as an association list:
the first binding of the key wins. -/
def dictGet {α : Type} (m : List (String × α)) (k : String) : Option α :=
  match m with
  | [] => none
  | p :: rest => if p.1 = k then some p.2 else dictGet rest k

/-- Python dict item mutation `m[k] = v` for a key already present:
replace the bound value in place. -/
def dictSet {α : Type} (m : List (String × α)) (k : String) (v : α) :
    List (String × α) :=
  m.map (fun p => if p.1 = k then (k, v) else p)

/-- `app/models.py` `BufferSegment`: a recorded segment of the Segment Index.
`start`/`end` are absolute timestamps in seconds, `keyframes` the offsets in
seconds from `start` (`List[float]` in the source). -/
structure BufferSegment where
  file : String
  start : ℚ
  «end» : ℚ
  keyframes : List ℚ
deriving DecidableEq, Repr

/-- The directional-bias adjustment of `snap_to_keyframe`
(`app/buffer_index.py` lines 112–119): replace the nearest keyframe by the
largest one ≤ `relative_time` when `prefer_earlier` holds and the nearest is
strictly after it (Python keeps the nearest when the `earlier_keyframes`
list is empty), and symmetrically when `prefer_earlier` is false. -/
def snapChoice (keyframes : List ℚ) (relative_time : ℚ) (prefer_earlier : Bool)
    (nearest : ℚ) : ℚ :=
  if prefer_earlier = true ∧ relative_time < nearest then
    match pyMax (keyframes.filter (fun kf => decide (kf ≤ relative_time))) with
    | some m => m
    | none => nearest
  else if prefer_earlier = false ∧ nearest < relative_time then
    match pyMin (keyframes.filter (fun kf => decide (relative_time ≤ kf))) with
    | some m => m
    | none => nearest
  else nearest

/-- `BufferIndex.snap_to_keyframe` (`app/buffer_index.py` lines 101–122).
`Except` captures the two places the source can raise when `keyframes` is empty:
`segment.keyframes[-1]` (an `IndexError`) in the end-clamp branch and
`min(segment.keyframes, key=...)` (a `ValueError`) in the nearest-offset
selection. -/
def snap_to_keyframe (segment : BufferSegment) (timestamp : ℚ)
    (prefer_earlier : Bool) : Except String (ℚ × ℚ) :=
  let segment_duration := segment.«end» - segment.start
  let relative_time := timestamp - segment.start
  if relative_time < 0 then
    .ok (segment.start, 0)
  else if segment_duration < relative_time then
    match segment.keyframes.getLast? with
    | none => .error "IndexError: keyframes[-1] on empty list"
    | some last => .ok (segment.«end», last)
  else
    match pyMinBy (fun kf => pyAbs (kf - relative_time)) segment.keyframes with
    | none => .error "ValueError: min() arg is an empty sequence"
    | some nearest =>
      let closest_keyframe :=
        snapChoice segment.keyframes relative_time prefer_earlier nearest
      .ok (segment.start + closest_keyframe, closest_keyframe)

/-- The ordering key of `sorted(relevant_segments, key=lambda s: s.start)`
(`app/buffer_index.py` line 99). -/
def segLE (a b : BufferSegment) : Prop :=
  a.start ≤ b.start

instance : DecidableRel segLE :=
  fun a b => inferInstanceAs (Decidable (a.start ≤ b.start))

instance : IsTotal BufferSegment segLE :=
  ⟨fun a b => le_total a.start b.start⟩

instance : IsTrans BufferSegment segLE :=
  ⟨fun _ _ _ h1 h2 => le_trans h1 h2⟩

/-- `BufferIndex.find_segments` (`app/buffer_index.py` lines 90–99): the
segments of the camera whose range touches `[start_time, end_time]`
inclusively, sorted by start time.  The index `buffer_data` dict is an
association list; Python's stable `sorted` is rendered as insertion sort,
which produces the same sorted-by-start list. -/
def find_segments (buffer_data : List (String × List BufferSegment))
    (camera_id : String) (start_time end_time : ℚ) : List BufferSegment :=
  match dictGet buffer_data camera_id with
  | none => []
  | some segments =>
    let relevant_segments := segments.filter
      (fun segment => decide (segment.start ≤ end_time) &&
        decide (start_time ≤ segment.«end»))
    List.insertionSort segLE relevant_segments

/-- A candidate source file as Segment Discovery sees it: the filesystem
facts the source reads about it.  `parsed_start` is the result of the
timestamp-pattern scan over the filename (`_extract_clip_info` lines 69–98:
the first pattern that matches and parses wins, `none` when no pattern
matches); `st_mtime` the `os.stat(...).st_mtime` fallback read at line 103;
`st_size` the `os.stat(...).st_size` read at line 117 used for the duration
heuristic; `getsize` the `os.path.getsize` call at line 137.  Each stat can
fail independently (permission, deletion race), hence `Except`. -/
structure FsFile where
  file_path : String
  filename : String
  parsed_start : Option ℚ
  st_mtime : Except String ℚ
  st_size : Except String Nat
  getsize : Except String Nat
deriving DecidableEq, Repr

/-- The clip-info dict built by `_extract_clip_info` (lines 131–138). -/
structure ClipInfo where
  file_path : String
  filename : String
  start_time : ℚ
  end_time : ℚ
  duration_seconds : ℚ
  file_size : Nat
deriving DecidableEq, Repr

/-- Lines 76–108 of `_extract_clip_info`: the clip start from the filename
patterns, else the `st_mtime` fallback; a failing fallback stat is caught and
the file yields no timestamp (the function then returns `None`). -/
def clip_start_of (f : FsFile) : Option ℚ :=
  match f.parsed_start with
  | some t => some t
  | none =>
    match f.st_mtime with
    | .ok t => some t
    | .error _ => none

/-- Lines 110–126 of `_extract_clip_info`: duration starts at the fixed
20-second default; a successful `os.stat` of positive size replaces it by
`max(5, int(file_size_mb * 5))`; a failing stat is caught and keeps 20. -/
def estimate_duration (st_size : Except String Nat) : ℚ :=
  match st_size with
  | .error _ => 20
  | .ok size =>
    let file_size_mb : ℚ := (size : ℚ) / (1024 * 1024)
    if 0 < file_size_mb then pyMax2 5 ((pyInt (file_size_mb * 5) : ℤ) : ℚ)
    else 20

/-- `MediaMTXClient._extract_clip_info` (`app/mediamtx_client.py` lines
54–140).  Result `.ok none` means the file is skipped, `.ok (some ci)` a
qualifying candidate.  The one uncaught call is `os.path.getsize` at line
137: its failure is `.error` and propagates. -/
def _extract_clip_info (f : FsFile) (start_time end_time : ℚ) :
    Except String (Option ClipInfo) :=
  match clip_start_of f with
  | none => .ok none
  | some clip_start_time =>
    let estimated_duration := estimate_duration f.st_size
    let clip_end_time := clip_start_time + estimated_duration
    if start_time ≤ clip_end_time ∧ clip_start_time ≤ end_time then
      match f.getsize with
      | .ok sz =>
        .ok (some { file_path := f.file_path, filename := f.filename,
                    start_time := clip_start_time, end_time := clip_end_time,
                    duration_seconds := estimated_duration, file_size := sz })
      | .error e => .error e
    else .ok none

/-- The ordering key of `clips.sort(key=lambda x: x['start_time'])`
(`app/mediamtx_client.py` line 51). -/
def clipLE (a b : ClipInfo) : Prop :=
  a.start_time ≤ b.start_time

instance : DecidableRel clipLE :=
  fun a b => inferInstanceAs (Decidable (a.start_time ≤ b.start_time))

instance : IsTotal ClipInfo clipLE :=
  ⟨fun a b => le_total a.start_time b.start_time⟩

instance : IsTrans ClipInfo clipLE :=
  ⟨fun _ _ _ h1 h2 => le_trans h1 h2⟩

/-- The scan loop of `find_clips` (lines 43–48): each file is inspected in
turn; an exception from `_extract_clip_info` propagates and aborts the whole
scan (there is no handler in the loop). -/
def scan_files (files : List FsFile) (start_time end_time : ℚ) :
    Except String (List ClipInfo) :=
  match files with
  | [] => .ok []
  | f :: rest =>
    match _extract_clip_info f start_time end_time with
    | .error e => .error e
    | .ok none => scan_files rest start_time end_time
    | .ok (some ci) =>
      match scan_files rest start_time end_time with
      | .error e => .error e
      | .ok clips => .ok (ci :: clips)

/-- `MediaMTXClient.find_clips` (lines 22–52) for an existing camera
directory whose enumerated media files are `files`: inspect every file, then
sort the qualifying candidates by recording start time. -/
def find_clips (files : List FsFile) (start_time end_time : ℚ) :
    Except String (List ClipInfo) :=
  match scan_files files start_time end_time with
  | .error e => .error e
  | .ok clips => .ok (List.insertionSort clipLE clips)

/-- How the `subprocess.run(cmd, ..., timeout=300)` invocation of the
transcoder ends (`app/clip_processor.py` lines 109–126): it returns with an
exit code, raises `TimeoutExpired` after the 300-second ceiling, or raises
before launch (tool missing / permission denied). -/
inductive FfmpegOutcome where
  | completed (returncode : Int)
  | timeout
  | launchFailure (msg : String)
deriving DecidableEq, Repr

/-- The transcoder command built by `_process_mediamtx_clips`: single-file
trim (lines 64–81) or concat-demuxer assembly (lines 82–104). -/
inductive FfmpegCmd where
  | trim (start_offset : ℚ) (input : String) (duration : ℚ) (output : String)
  | concat (manifest_entries : List String) (output : String)
deriving DecidableEq, Repr

/-- What an invocation of `_process_mediamtx_clips` did: the boolean result
it returns, the command it built (`none` when `clips` is empty and the
`clips[0]` subscript raises before a command exists), and whether the concat
manifest scratch file is still on disk when the call returns. -/
structure ProcOutcome where
  success : Bool
  cmd : Option FfmpegCmd
  manifest_after : Bool
deriving DecidableEq, Repr

/-- `ClipProcessor._process_mediamtx_clips` (`app/clip_processor.py` lines
61–152).  With a single candidate it trims with
`start_offset = max(0, start_time − clip.start_time)` and
`duration = end_time − max(start_time, clip.start_time)`; with several it
writes the concat manifest and runs the concat command.  The manifest
removal (lines 128–132) runs only when `subprocess.run` returned: the
`TimeoutExpired` and launch-failure handlers (lines 119–126) `return False`
before reaching it, leaving the scratch file on disk.  An empty `clips`
list raises `IndexError` at line 84 while naming the manifest; the outer
handler (lines 145–152) turns that into `False` with no file written. -/
def _process_mediamtx_clips (clips : List ClipInfo) (start_time end_time : ℚ)
    (output_path : String) (outcome : FfmpegOutcome) : ProcOutcome :=
  match clips with
  | [] => { success := false, cmd := none, manifest_after := false }
  | [clip] =>
    let start_offset := pyMax2 0 (start_time - clip.start_time)
    let duration := end_time - pyMax2 start_time clip.start_time
    let cmd := FfmpegCmd.trim start_offset clip.file_path duration output_path
    match outcome with
    | .completed returncode =>
      { success := decide (returncode = 0), cmd := some cmd,
        manifest_after := false }
    | .timeout => { success := false, cmd := some cmd, manifest_after := false }
    | .launchFailure _ =>
      { success := false, cmd := some cmd, manifest_after := false }
  | c1 :: c2 :: rest =>
    let cmd := FfmpegCmd.concat ((c1 :: c2 :: rest).map (·.file_path)) output_path
    match outcome with
    | .completed returncode =>
      { success := decide (returncode = 0), cmd := some cmd,
        manifest_after := false }
    | .timeout => { success := false, cmd := some cmd, manifest_after := true }
    | .launchFailure _ =>
      { success := false, cmd := some cmd, manifest_after := true }

/-- `app/models.py` `ClipStatus`. -/
inductive ClipStatus where
  | pending
  | processing
  | done
  | failed
deriving DecidableEq, Repr

/-- `app/models.py` `ClipResponse`: the job record the coordinator stores. -/
structure ClipJob where
  clip_id : String
  status : ClipStatus
  camera_id : String
  start_time : ℚ
  end_time : ℚ
  download_url : Option String
  error_message : Option String
  created_at : ℚ
  completed_at : Option ℚ
deriving DecidableEq, Repr

/-- The push-style metrics calls `update_job_status` makes on a terminal
transition (`app/job_manager.py` lines 65–68). -/
inductive MetricEvent where
  | request_complete (clip_id camera_id : String) (success : Bool)
deriving DecidableEq, Repr

/-- `JobManager.update_job_status` (`app/job_manager.py` lines 53–68) on the
job table: if the id is present, overwrite its status (no guard on the
previous status), set `download_url` / `error_message` when the arguments
are truthy, and on a terminal status stamp `completed_at` and emit the
completion metric; an unknown id does nothing.  Returns the new table and
the emitted metric events. -/
def update_job_status (jobs : List (String × ClipJob)) (now : ℚ)
    (clip_id : String) (status : ClipStatus) (download_url : Option String)
    (error_message : Option String) :
    List (String × ClipJob) × List MetricEvent :=
  match dictGet jobs clip_id with
  | none => (jobs, [])
  | some job =>
    let job1 := { job with status := status }
    let job2 :=
      match download_url with
      | some u => if u = "" then job1 else { job1 with download_url := some u }
      | none => job1
    let job3 :=
      match error_message with
      | some e => if e = "" then job2 else { job2 with error_message := some e }
      | none => job2
    if status = ClipStatus.done ∨ status = ClipStatus.failed then
      (dictSet jobs clip_id { job3 with completed_at := some now },
        [MetricEvent.request_complete clip_id job.camera_id
          (decide (status = ClipStatus.done))])
    else (dictSet jobs clip_id job3, [])

/-- The coordinator state shared between submitters and the worker pool:
the job table, the FIFO queue of pending clip ids, and the ids currently
owned by a worker (dequeued, marked `processing`, not yet finished). -/
structure CoordState where
  jobs : List (String × ClipJob)
  queue : List String
  inflight : List String

/-- `JobManager.submit_job` (lines 19–47): create the record with status
`pending` and window `[timestamp − 15, timestamp + 5]`, insert it into the
table, enqueue the id. -/
def submit_job (s : CoordState) (clip_id camera_id : String) (timestamp now : ℚ) :
    CoordState :=
  let job : ClipJob :=
    { clip_id := clip_id, status := ClipStatus.pending, camera_id := camera_id,
      start_time := timestamp - 15, end_time := timestamp + 5,
      download_url := none, error_message := none,
      created_at := now, completed_at := none }
  { jobs := s.jobs ++ [(clip_id, job)], queue := s.queue ++ [clip_id],
    inflight := s.inflight }

/-- Status of a job id in a table. -/
def jobStatus (jobs : List (String × ClipJob)) (clip_id : String) :
    Option ClipStatus :=
  (dictGet jobs clip_id).map (fun j => j.status)

/-- Status of a job id in a coordinator state. -/
def statusOf (s : CoordState) (clip_id : String) : Option ClipStatus :=
  jobStatus s.jobs clip_id

/-- One atomic action of the coordinator, as the worker loop
(`app/job_manager.py` lines 79–118) and `submit_job` actually issue them:

* `submit`: a fresh id is inserted `pending` and enqueued (lines 27–39);
* `worker_begin`: a worker dequeues the front id, finds its record and marks
  it `processing` (lines 84–92);
* `worker_skip`: a worker dequeues an id with no record and continues
  (lines 87–89);
* `worker_finish`: the worker owning an id posts its terminal status —
  `done` with the download url on success, `failed` with the error message
  otherwise (lines 95–107). -/
inductive Step : CoordState → CoordState → Prop where
  | submit (s : CoordState) (clip_id camera_id : String) (timestamp now : ℚ)
      (fresh : dictGet s.jobs clip_id = none) :
      Step s (submit_job s clip_id camera_id timestamp now)
  | worker_begin (s : CoordState) (clip_id : String) (rest : List String)
      (now : ℚ) (hq : s.queue = clip_id :: rest) (j : ClipJob)
      (hj : dictGet s.jobs clip_id = some j) :
      Step s
        { jobs := (update_job_status s.jobs now clip_id ClipStatus.processing
            none none).1,
          queue := rest, inflight := clip_id :: s.inflight }
  | worker_skip (s : CoordState) (clip_id : String) (rest : List String)
      (hq : s.queue = clip_id :: rest) (hj : dictGet s.jobs clip_id = none) :
      Step s { jobs := s.jobs, queue := rest, inflight := s.inflight }
  | worker_finish (s : CoordState) (clip_id : String) (now : ℚ)
      (success : Bool) (result : String) (hin : clip_id ∈ s.inflight) :
      Step s
        { jobs := (update_job_status s.jobs now clip_id
            (if success then ClipStatus.done else ClipStatus.failed)
            (if success then some result else none)
            (if success then none else some result)).1,
          queue := s.queue, inflight := s.inflight.erase clip_id }

/-- The coordinator's initial state: empty table, empty queue, idle pool. -/
def initState : CoordState :=
  { jobs := [], queue := [], inflight := [] }

/-- States the coordinator can actually be in. -/
def Reachable (s : CoordState) : Prop :=
  Relation.ReflTransGen Step initState s

/-- The transitions the specification permits for one observed status change:
unchanged, fresh `pending`, `pending → processing`, or
`processing → done/failed`. -/
def statusStepOk (a b : Option ClipStatus) : Prop :=
  a = b ∨
  (a = none ∧ b = some ClipStatus.pending) ∨
  (a = some ClipStatus.pending ∧ b = some ClipStatus.processing) ∨
  (a = some ClipStatus.processing ∧
    (b = some ClipStatus.done ∨ b = some ClipStatus.failed))

/-- The structural facts every reachable coordinator state satisfies:
queued ids are `pending`, in-flight ids are `processing`, and no id is
queued or owned twice. -/
def CoordInv (s : CoordState) : Prop :=
  (∀ id ∈ s.queue, statusOf s id = some ClipStatus.pending) ∧
  (∀ id ∈ s.inflight, statusOf s id = some ClipStatus.processing) ∧
  (s.queue ++ s.inflight).Nodup

/-- Nearest-keyframe selection as §4.1 of the specification words it:
`k` is an offset of the list at minimal distance from `r`, and on an exact
distance tie `k` is the smaller offset. -/
def is_nearest_tie_smaller (kfs : List ℚ) (r k : ℚ) : Prop :=
  k ∈ kfs ∧ ∀ k' ∈ kfs,
    pyAbs (k - r) < pyAbs (k' - r) ∨ (pyAbs (k - r) = pyAbs (k' - r) ∧ k ≤ k')

/-- `k` is the largest offset of the list that is ≤ `r` (the spec's
replacement target when `prefer_earlier` holds and the nearest keyframe is
strictly after `r`). -/
def isGreatestLe (kfs : List ℚ) (r k : ℚ) : Prop :=
  k ∈ kfs ∧ k ≤ r ∧ ∀ k' ∈ kfs, k' ≤ r → k' ≤ k

/-- `k` is the smallest offset of the list that is ≥ `r` (the symmetric
replacement target when `prefer_earlier` is false). -/
def isLeastGe (kfs : List ℚ) (r k : ℚ) : Prop :=
  k ∈ kfs ∧ r ≤ k ∧ ∀ k' ∈ kfs, r ≤ k' → k ≤ k'

/-- `ClipProcessor.process_clip` (`app/clip_processor.py` lines 26–59), body
of the outer `try`.  Inputs beyond the job record are the oracles of its
effects: the outcome of the `find_clips` scan (which can itself raise, see
`find_clips`), the outcome of the transcoder invocation, and the
`datetime.now().strftime(...)` stamp used in the output filename.  The
provenance/annotation writing of lines 47–51 and 154–198 is pure reporting
and not modelled.  An `.error` result is an exception reaching the outer
handler. -/
def process_clip_body (job : ClipJob)
    (find_result : Except String (List ClipInfo)) (outcome : FfmpegOutcome)
    (stamp : String) : Except String (Bool × String) :=
  match find_result with
  | .error e => .error e
  | .ok clips =>
    if clips = [] then
      .ok (false, "No clips found for camera " ++ job.camera_id ++
        " in time range")
    else
      let output_filename :=
        job.camera_id ++ "_" ++ stamp ++ "_" ++ job.clip_id ++ ".mp4"
      let output_path := "videos/" ++ output_filename
      let success :=
        (_process_mediamtx_clips clips job.start_time job.end_time output_path
          outcome).success
      if success = false then .ok (false, "FFmpeg processing failed")
      else .ok (true, "/videos/" ++ output_filename)

/-- `ClipProcessor.process_clip` with its outer `try/except` (lines 27 and
56–59): any exception from the body is converted to `(False, str(e))`, so
the caller always receives an explicit outcome. -/
def process_clip (job : ClipJob) (find_result : Except String (List ClipInfo))
    (outcome : FfmpegOutcome) (stamp : String) : Bool × String :=
  match process_clip_body job find_result outcome stamp with
  | .ok r => r
  | .error e => (false, e)

/-! ### Helper lemmas about the Python `min` / `max` folds -/

theorem foldl_max_mem_le (xs : List ℚ) (a : ℚ) :
    (xs.foldl (fun acc y => if acc < y then y else acc) a = a ∨
      xs.foldl (fun acc y => if acc < y then y else acc) a ∈ xs) ∧
    a ≤ xs.foldl (fun acc y => if acc < y then y else acc) a ∧
    (∀ k ∈ xs, k ≤ xs.foldl (fun acc y => if acc < y then y else acc) a) := by
  induction xs generalizing a with
  | nil => exact ⟨Or.inl rfl, le_refl a, by simp⟩
  | cons y ys ih =>
    obtain ⟨h1, h2, h3⟩ := ih (if a < y then y else a)
    have hay : a ≤ (if a < y then y else a) := by
      by_cases h : a < y
      · rw [if_pos h]; exact le_of_lt h
      · rw [if_neg h]
    have hyy : y ≤ (if a < y then y else a) := by
      by_cases h : a < y
      · rw [if_pos h]
      · rw [if_neg h]; exact le_of_not_lt h
    have hcases : (if a < y then y else a) = a ∨ (if a < y then y else a) = y := by
      by_cases h : a < y
      · exact Or.inr (if_pos h)
      · exact Or.inl (if_neg h)
    refine ⟨?_, ?_, ?_⟩
    · simp only [List.foldl_cons]
      rcases h1 with h1 | h1
      · rcases hcases with hc | hc
        · exact Or.inl (h1.trans hc)
        · exact Or.inr (by rw [h1, hc]; exact List.mem_cons_self y ys)
      · exact Or.inr (List.mem_cons_of_mem y h1)
    · simp only [List.foldl_cons]
      exact le_trans hay h2
    · intro k hk
      simp only [List.foldl_cons]
      rcases List.mem_cons.mp hk with hk | hk
      · subst hk; exact le_trans hyy h2
      · exact h3 k hk

theorem pyMax_spec (xs : List ℚ) (m : ℚ) (h : pyMax xs = some m) :
    m ∈ xs ∧ ∀ k ∈ xs, k ≤ m := by
  match xs with
  | x :: rest =>
    have h' : rest.foldl (fun acc y => if acc < y then y else acc) x = m := by
      simpa [pyMax] using h
    obtain ⟨h1, h2, h3⟩ := foldl_max_mem_le rest x
    rw [h'] at h1 h2 h3
    constructor
    · rcases h1 with h1 | h1
      · rw [h1]; exact List.mem_cons_self x rest
      · exact List.mem_cons_of_mem x h1
    · intro k hk
      rcases List.mem_cons.mp hk with hk | hk
      · subst hk; exact h2
      · exact h3 k hk

theorem foldl_min_mem_le (xs : List ℚ) (a : ℚ) :
    (xs.foldl (fun acc y => if y < acc then y else acc) a = a ∨
      xs.foldl (fun acc y => if y < acc then y else acc) a ∈ xs) ∧
    xs.foldl (fun acc y => if y < acc then y else acc) a ≤ a ∧
    (∀ k ∈ xs, xs.foldl (fun acc y => if y < acc then y else acc) a ≤ k) := by
  induction xs generalizing a with
  | nil => exact ⟨Or.inl rfl, le_refl a, by simp⟩
  | cons y ys ih =>
    obtain ⟨h1, h2, h3⟩ := ih (if y < a then y else a)
    have hay : (if y < a then y else a) ≤ a := by
      by_cases h : y < a
      · rw [if_pos h]; exact le_of_lt h
      · rw [if_neg h]
    have hyy : (if y < a then y else a) ≤ y := by
      by_cases h : y < a
      · rw [if_pos h]
      · rw [if_neg h]; exact le_of_not_lt h
    have hcases : (if y < a then y else a) = a ∨ (if y < a then y else a) = y := by
      by_cases h : y < a
      · exact Or.inr (if_pos h)
      · exact Or.inl (if_neg h)
    refine ⟨?_, ?_, ?_⟩
    · simp only [List.foldl_cons]
      rcases h1 with h1 | h1
      · rcases hcases with hc | hc
        · exact Or.inl (h1.trans hc)
        · exact Or.inr (by rw [h1, hc]; exact List.mem_cons_self y ys)
      · exact Or.inr (List.mem_cons_of_mem y h1)
    · simp only [List.foldl_cons]
      exact le_trans h2 hay
    · intro k hk
      simp only [List.foldl_cons]
      rcases List.mem_cons.mp hk with hk | hk
      · subst hk; exact le_trans h2 hyy
      · exact h3 k hk

theorem pyMin_spec (xs : List ℚ) (m : ℚ) (h : pyMin xs = some m) :
    m ∈ xs ∧ ∀ k ∈ xs, m ≤ k := by
  match xs with
  | x :: rest =>
    have h' : rest.foldl (fun acc y => if y < acc then y else acc) x = m := by
      simpa [pyMin] using h
    obtain ⟨h1, h2, h3⟩ := foldl_min_mem_le rest x
    rw [h'] at h1 h2 h3
    constructor
    · rcases h1 with h1 | h1
      · rw [h1]; exact List.mem_cons_self x rest
      · exact List.mem_cons_of_mem x h1
    · intro k hk
      rcases List.mem_cons.mp hk with hk | hk
      · subst hk; exact h2
      · exact h3 k hk

theorem foldl_minBy_mem (key : ℚ → ℚ) (xs : List ℚ) (a : ℚ) :
    xs.foldl (fun acc y => if key y < key acc then y else acc) a = a ∨
    xs.foldl (fun acc y => if key y < key acc then y else acc) a ∈ xs := by
  induction xs generalizing a with
  | nil => exact Or.inl rfl
  | cons y ys ih =>
    simp only [List.foldl_cons]
    rcases ih (if key y < key a then y else a) with h | h
    · by_cases hc : key y < key a
      · exact Or.inr (by rw [h, if_pos hc]; exact List.mem_cons_self y ys)
      · exact Or.inl (by rw [h, if_neg hc])
    · exact Or.inr (List.mem_cons_of_mem y h)

theorem pyMinBy_mem (key : ℚ → ℚ) (xs : List ℚ) (n : ℚ)
    (h : pyMinBy key xs = some n) : n ∈ xs := by
  match xs with
  | x :: rest =>
    have h' : rest.foldl (fun acc y => if key y < key acc then y else acc) x = n := by
      simpa [pyMinBy] using h
    rcases foldl_minBy_mem key rest x with h1 | h1
    · rw [h'] at h1; rw [h1]; exact List.mem_cons_self x rest
    · rw [h'] at h1; exact List.mem_cons_of_mem x h1

theorem foldl_minBy_sorted (key : ℚ → ℚ) (xs : List ℚ) (a : ℚ)
    (hle : ∀ y ∈ xs, a ≤ y) (hs : List.Sorted (· ≤ ·) xs) :
    (xs.foldl (fun acc y => if key y < key acc then y else acc) a = a ∨
      (xs.foldl (fun acc y => if key y < key acc then y else acc) a ∈ xs ∧
        key (xs.foldl (fun acc y => if key y < key acc then y else acc) a) < key a)) ∧
    (∀ k ∈ xs,
      key (xs.foldl (fun acc y => if key y < key acc then y else acc) a) < key k ∨
      (key (xs.foldl (fun acc y => if key y < key acc then y else acc) a) = key k ∧
        xs.foldl (fun acc y => if key y < key acc then y else acc) a ≤ k)) := by
  induction xs generalizing a with
  | nil => exact ⟨Or.inl rfl, by simp⟩
  | cons y ys ih =>
    have hsy : ∀ z ∈ ys, y ≤ z := (List.sorted_cons.mp hs).1
    have hs' : List.Sorted (· ≤ ·) ys := (List.sorted_cons.mp hs).2
    have hay : a ≤ y := hle y (List.mem_cons_self y ys)
    have hle' : ∀ z ∈ ys, (if key y < key a then y else a) ≤ z := by
      intro z hz
      by_cases hc : key y < key a
      · simp only [if_pos hc]; exact hsy z hz
      · simp only [if_neg hc]; exact hle z (List.mem_cons_of_mem y hz)
    obtain ⟨h1, h2⟩ := ih (if key y < key a then y else a) hle' hs'
    simp only [List.foldl_cons]
    by_cases hc : key y < key a
    · rw [if_pos hc] at h1 h2 ⊢
      constructor
      · rcases h1 with h1 | ⟨hm, hk⟩
        · exact Or.inr ⟨by rw [h1]; exact List.mem_cons_self y ys, by rw [h1]; exact hc⟩
        · exact Or.inr ⟨List.mem_cons_of_mem y hm, lt_trans hk hc⟩
      · intro k hk
        rcases List.mem_cons.mp hk with hk | hk
        · subst hk
          rcases h1 with h1 | ⟨_, hlt⟩
          · exact Or.inr ⟨by rw [h1], by rw [h1]⟩
          · exact Or.inl hlt
        · exact h2 k hk
    · rw [if_neg hc] at h1 h2 ⊢
      have hak : key a ≤ key y := le_of_not_lt hc
      constructor
      · exact h1.imp id (fun h => ⟨List.mem_cons_of_mem y h.1, h.2⟩)
      · intro k hk
        rcases List.mem_cons.mp hk with hk | hk
        · subst hk
          rcases h1 with h1 | ⟨_, hlt⟩
          · rcases lt_or_eq_of_le hak with hlt | heq
            · exact Or.inl (by rw [h1]; exact hlt)
            · exact Or.inr ⟨by rw [h1]; exact heq, by rw [h1]; exact hay⟩
          · exact Or.inl (lt_of_lt_of_le hlt hak)
        · exact h2 k hk

theorem pyMinBy_sorted_spec (key : ℚ → ℚ) (xs : List ℚ)
    (hs : List.Sorted (· ≤ ·) xs) (n : ℚ) (h : pyMinBy key xs = some n) :
    n ∈ xs ∧ ∀ k ∈ xs, key n < key k ∨ (key n = key k ∧ n ≤ k) := by
  match xs with
  | x :: rest =>
    have h' : rest.foldl (fun acc y => if key y < key acc then y else acc) x = n := by
      simpa [pyMinBy] using h
    have hxr : ∀ y ∈ rest, x ≤ y := (List.sorted_cons.mp hs).1
    have hsr : List.Sorted (· ≤ ·) rest := (List.sorted_cons.mp hs).2
    obtain ⟨h1, h2⟩ := foldl_minBy_sorted key rest x hxr hsr
    rw [h'] at h1 h2
    constructor
    · rcases h1 with h1 | ⟨hm, _⟩
      · rw [h1]; exact List.mem_cons_self x rest
      · exact List.mem_cons_of_mem x hm
    · intro k hk
      rcases List.mem_cons.mp hk with hk | hk
      · subst hk
        rcases h1 with h1 | ⟨_, hlt⟩
        · exact Or.inr ⟨by rw [h1], by rw [h1]⟩
        · exact Or.inl hlt
      · exact h2 k hk

/-! ### Helper lemmas about the dict model -/

theorem dictGet_dictSet_self {α : Type} (m : List (String × α)) (k : String)
    (v : α) (h : dictGet m k = some v) (j : α) :
    dictGet (dictSet m k j) k = some j := by
  induction m with
  | nil => simp [dictGet] at h
  | cons p rest ih =>
    by_cases hp : p.1 = k
    · simp [dictGet, dictSet, hp]
    · have h' : dictGet rest k = some v := by simpa [dictGet, hp] using h
      simpa [dictGet, dictSet, hp] using ih h'

theorem dictGet_dictSet_ne {α : Type} (k k' : String) (h : k' ≠ k)
    (m : List (String × α)) (j : α) :
    dictGet (dictSet m k j) k' = dictGet m k' := by
  induction m with
  | nil => rfl
  | cons p rest ih =>
    by_cases hp : p.1 = k
    · simpa [dictGet, dictSet, hp, Ne.symm h] using ih
    · simp only [dictSet, List.map_cons, if_neg hp, dictGet]
      rw [show dictSet rest k j = rest.map
        (fun p => if p.1 = k then (k, j) else p) from rfl] at ih
      by_cases hq : p.1 = k'
      · simp [hq]
      · simp [hq, ih]

theorem dictGet_append_some {α : Type} (m l : List (String × α)) (k : String)
    (v : α) (h : dictGet m k = some v) : dictGet (m ++ l) k = some v := by
  induction m with
  | nil => simp [dictGet] at h
  | cons p rest ih =>
    by_cases hp : p.1 = k
    · simp only [dictGet, hp, if_pos] at h ⊢
      simpa using h
    · have h' : dictGet rest k = some v := by simpa [dictGet, hp] using h
      simpa [dictGet, hp] using ih h'

theorem dictGet_append_none {α : Type} (m l : List (String × α)) (k : String)
    (h : dictGet m k = none) : dictGet (m ++ l) k = dictGet l k := by
  induction m with
  | nil => rfl
  | cons p rest ih =>
    by_cases hp : p.1 = k
    · simp [dictGet, hp] at h
    · have h' : dictGet rest k = none := by simpa [dictGet, hp] using h
      simpa [dictGet, hp] using ih h'

/-! ### Branch lemmas for `snap_to_keyframe` -/

theorem snap_to_keyframe_clamp_start (S : BufferSegment) (T : ℚ) (pe : Bool)
    (h1 : T - S.start < 0) :
    snap_to_keyframe S T pe = .ok (S.start, 0) := by
  simp only [snap_to_keyframe]
  rw [if_pos h1]

theorem snap_to_keyframe_clamp_end (S : BufferSegment) (T : ℚ) (pe : Bool)
    (h1 : ¬ (T - S.start < 0)) (h2 : S.«end» - S.start < T - S.start)
    (l : ℚ) (hl : S.keyframes.getLast? = some l) :
    snap_to_keyframe S T pe = .ok (S.«end», l) := by
  simp only [snap_to_keyframe]
  rw [if_neg h1, if_pos h2, hl]

theorem snap_to_keyframe_in_range (S : BufferSegment) (T : ℚ) (pe : Bool)
    (h1 : ¬ (T - S.start < 0)) (h2 : ¬ (S.«end» - S.start < T - S.start))
    (n : ℚ)
    (hn : pyMinBy (fun kf => pyAbs (kf - (T - S.start))) S.keyframes = some n) :
    snap_to_keyframe S T pe =
      .ok (S.start + snapChoice S.keyframes (T - S.start) pe n,
        snapChoice S.keyframes (T - S.start) pe n) := by
  simp only [snap_to_keyframe]
  rw [if_neg h1, if_neg h2, hn]

theorem pyMinBy_of_ne_nil (key : ℚ → ℚ) (xs : List ℚ) (hne : xs ≠ []) :
    ∃ n, pyMinBy key xs = some n := by
  match xs with
  | [] => exact absurd rfl hne
  | x :: rest => exact ⟨_, rfl⟩

theorem snapChoice_mem (kfs : List ℚ) (r : ℚ) (pe : Bool) (n : ℚ)
    (hn : n ∈ kfs) : snapChoice kfs r pe n ∈ kfs := by
  unfold snapChoice
  by_cases hc1 : pe = true ∧ r < n
  · rw [if_pos hc1]
    cases hm : pyMax (kfs.filter (fun kf => decide (kf ≤ r))) with
    | none => exact hn
    | some m => exact List.mem_of_mem_filter (pyMax_spec _ m hm).1
  · rw [if_neg hc1]
    by_cases hc2 : pe = false ∧ n < r
    · rw [if_pos hc2]
      cases hm : pyMin (kfs.filter (fun kf => decide (r ≤ kf))) with
      | none => exact hn
      | some m => exact List.mem_of_mem_filter (pyMin_spec _ m hm).1
    · rw [if_neg hc2]; exact hn

theorem snap_ok_of_keyframes_ne_nil (S : BufferSegment) (T : ℚ) (pe : Bool)
    (hne : S.keyframes ≠ []) : ∃ v, snap_to_keyframe S T pe = .ok v := by
  by_cases h1 : T - S.start < 0
  · exact ⟨_, snap_to_keyframe_clamp_start S T pe h1⟩
  · by_cases h2 : S.«end» - S.start < T - S.start
    · obtain ⟨l, hl⟩ : ∃ l, S.keyframes.getLast? = some l := by
        cases hk : S.keyframes.getLast? with
        | none => exact absurd (List.getLast?_eq_none_iff.mp hk) hne
        | some l => exact ⟨l, rfl⟩
      exact ⟨_, snap_to_keyframe_clamp_end S T pe h1 h2 l hl⟩
    · obtain ⟨n, hn⟩ := pyMinBy_of_ne_nil (fun kf => pyAbs (kf - (T - S.start)))
        S.keyframes hne
      exact ⟨_, snap_to_keyframe_in_range S T pe h1 h2 n hn⟩

/-- C1: as stated, the claim is FALSE for the end-clamp case.  With the
segment `[0, 30]` and keyframes `[0, 5]` (which satisfies every §3 data-model
invariant: `start < end`, sorted offsets, first offset 0, last offset ≤
duration), a timestamp past the segment end returns the pair
`(segment.end, last keyframe) = (30, 5)`, and `30 ≠ start + 5`. -/
theorem C1_counterexample :
    snap_to_keyframe ⟨"clip.mp4", 0, 30, [0, 5]⟩ 40 true = .ok (30, 5) ∧
    (30 : ℚ) ≠ 0 + 5 ∧
    (0 : ℚ) < 30 ∧ List.Sorted (· ≤ ·) [(0 : ℚ), 5] ∧
    [(0 : ℚ), 5].head? = some 0 ∧ (5 : ℚ) ≤ 30 - 0 := by
  refine ⟨by decide, by decide, by decide, ?_, by decide, by decide⟩
  simp [List.sorted_cons]

/-- C1 (amended): for every segment with a non-empty keyframe list and every
timestamp, `snap_to_keyframe` returns a pair whose offset is an element of
`keyframe_offsets` (or the boundary 0 when clamped to the start), and whose
snapped timestamp equals `start + offset` in the start-clamp and in-range
cases; in the end-clamp case the snapped timestamp is `segment.end` and the
offset is the last keyframe (so it equals `start + offset` only when the last
keyframe equals the segment duration). -/
theorem C1_amended_snap_result (S : BufferSegment) (T : ℚ) (pe : Bool)
    (hne : S.keyframes ≠ []) :
    ∃ ts off, snap_to_keyframe S T pe = .ok (ts, off) ∧
      (off ∈ S.keyframes ∨ (T - S.start < 0 ∧ off = 0)) ∧
      (if ¬ (T - S.start < 0) ∧ S.«end» - S.start < T - S.start
        then ts = S.«end» ∧ S.keyframes.getLast? = some off
        else ts = S.start + off) := by
  by_cases h1 : T - S.start < 0
  · refine ⟨S.start, 0, snap_to_keyframe_clamp_start S T pe h1, Or.inr ⟨h1, rfl⟩, ?_⟩
    rw [if_neg (by exact fun h => h.1 h1)]
    exact (add_zero S.start).symm
  · by_cases h2 : S.«end» - S.start < T - S.start
    · obtain ⟨l, hl⟩ : ∃ l, S.keyframes.getLast? = some l := by
        cases hk : S.keyframes.getLast? with
        | none => exact absurd (List.getLast?_eq_none_iff.mp hk) hne
        | some l => exact ⟨l, rfl⟩
      refine ⟨S.«end», l, snap_to_keyframe_clamp_end S T pe h1 h2 l hl,
        Or.inl (List.mem_of_getLast?_eq_some hl), ?_⟩
      rw [if_pos ⟨h1, h2⟩]
      exact ⟨rfl, hl⟩
    · obtain ⟨n, hn⟩ := pyMinBy_of_ne_nil (fun kf => pyAbs (kf - (T - S.start)))
        S.keyframes hne
      refine ⟨_, _, snap_to_keyframe_in_range S T pe h1 h2 n hn,
        Or.inl (snapChoice_mem _ _ _ _ (pyMinBy_mem _ _ _ hn)), ?_⟩
      rw [if_neg (by exact fun h => h2 h.2)]

/-- C1 witness: the amended theorem applied to the first default segment of
`camera1` at an in-range timestamp. -/
theorem C1_witness :
    ∃ ts off,
      snap_to_keyframe ⟨"mock_cameras/test.mp4", 0, 30, [0, 5, 10, 15, 20, 25, 30]⟩
        12 true = .ok (ts, off) ∧
      (off ∈ [(0 : ℚ), 5, 10, 15, 20, 25, 30] ∨ ((12 : ℚ) - 0 < 0 ∧ off = 0)) ∧
      (if ¬ ((12 : ℚ) - 0 < 0) ∧ (30 : ℚ) - 0 < 12 - 0
        then ts = 30 ∧ [(0 : ℚ), 5, 10, 15, 20, 25, 30].getLast? = some off
        else ts = 0 + off) :=
  C1_amended_snap_result ⟨"mock_cameras/test.mp4", 0, 30, [0, 5, 10, 15, 20, 25, 30]⟩
    12 true (by decide)

/-- C10: `snap_to_keyframe` is total exactly under the non-empty-keyframes
precondition: with at least one keyframe offset every timestamp yields an
`.ok` result, while with an empty keyframe list the end-clamp branch fails at
`keyframes[-1]` (`IndexError`) and the nearest-offset selection fails at
`min(...)` (`ValueError`); only the start-clamp branch survives emptiness. -/
theorem C10_totality_needs_keyframes (S : BufferSegment) (T : ℚ) (pe : Bool) :
    (S.keyframes ≠ [] → ∃ v, snap_to_keyframe S T pe = .ok v) ∧
    (S.keyframes = [] → ¬ (T - S.start < 0) →
      snap_to_keyframe S T pe = .error
        (if S.«end» - S.start < T - S.start
          then "IndexError: keyframes[-1] on empty list"
          else "ValueError: min() arg is an empty sequence")) := by
  constructor
  · intro hne
    exact snap_ok_of_keyframes_ne_nil S T pe hne
  · intro hemp h1
    by_cases h2 : S.«end» - S.start < T - S.start
    · rw [if_pos h2]
      simp only [snap_to_keyframe]
      rw [if_neg h1, if_pos h2, hemp]
      rfl
    · rw [if_neg h2]
      simp only [snap_to_keyframe]
      rw [if_neg h1, if_neg h2, hemp]
      rfl

/-- C10 witness: totality on a concrete non-empty segment, and both failure
messages on the same segment with its keyframes emptied. -/
theorem C10_witness :
    (∃ v, snap_to_keyframe ⟨"clip.mp4", 0, 30, [0, 5, 10]⟩ 12 true = .ok v) ∧
    (snap_to_keyframe ⟨"clip.mp4", 0, 30, []⟩ 12 true = .error
      (if (30 : ℚ) - 0 < 12 - 0
        then "IndexError: keyframes[-1] on empty list"
        else "ValueError: min() arg is an empty sequence")) ∧
    (snap_to_keyframe ⟨"clip.mp4", 0, 30, []⟩ 45 true = .error
      (if (30 : ℚ) - 0 < 45 - 0
        then "IndexError: keyframes[-1] on empty list"
        else "ValueError: min() arg is an empty sequence")) :=
  ⟨(C10_totality_needs_keyframes ⟨"clip.mp4", 0, 30, [0, 5, 10]⟩ 12 true).1
      (by decide),
    (C10_totality_needs_keyframes ⟨"clip.mp4", 0, 30, []⟩ 12 true).2 rfl
      (by decide),
    (C10_totality_needs_keyframes ⟨"clip.mp4", 0, 30, []⟩ 45 true).2 rfl
      (by decide)⟩

theorem pyMax_eq_none_iff (xs : List ℚ) : pyMax xs = none ↔ xs = [] := by
  cases xs with
  | nil => simp [pyMax]
  | cons x rest => simp [pyMax]

theorem pyMin_eq_none_iff (xs : List ℚ) : pyMin xs = none ↔ xs = [] := by
  cases xs with
  | nil => simp [pyMin]
  | cons x rest => simp [pyMin]

/-- C5: in the in-range case with a sorted non-empty keyframe list,
`snap_to_keyframe` first picks the offset nearest to
`relative = T − start` with exact-distance ties resolved to the smaller
offset (`n` below); then, if `prefer_earlier` holds and `n` is strictly
after `relative`, the returned offset is the largest keyframe ≤ `relative`
when one exists and `n` otherwise; symmetrically when `prefer_earlier` is
false and `n` is strictly before `relative`; in every other case the
returned offset is `n` itself, and the snapped time is `start + offset`. -/
theorem C5_nearest_selection (S : BufferSegment) (T : ℚ) (pe : Bool)
    (hsort : List.Sorted (· ≤ ·) S.keyframes) (hne : S.keyframes ≠ [])
    (h0 : 0 ≤ T - S.start) (h1 : T - S.start ≤ S.«end» - S.start) :
    ∃ n off,
      is_nearest_tie_smaller S.keyframes (T - S.start) n ∧
      snap_to_keyframe S T pe = .ok (S.start + off, off) ∧
      ((pe = true ∧ T - S.start < n) →
        (∀ m, isGreatestLe S.keyframes (T - S.start) m → off = m) ∧
        ((∀ k ∈ S.keyframes, ¬ k ≤ T - S.start) → off = n)) ∧
      ((pe = false ∧ n < T - S.start) →
        (∀ m, isLeastGe S.keyframes (T - S.start) m → off = m) ∧
        ((∀ k ∈ S.keyframes, ¬ T - S.start ≤ k) → off = n)) ∧
      (¬ (pe = true ∧ T - S.start < n) → ¬ (pe = false ∧ n < T - S.start) →
        off = n) := by
  have h1' : ¬ (T - S.start < 0) := not_lt.2 h0
  have h2' : ¬ (S.«end» - S.start < T - S.start) := not_lt.2 h1
  obtain ⟨n, hn⟩ := pyMinBy_of_ne_nil (fun kf => pyAbs (kf - (T - S.start)))
    S.keyframes hne
  have hspec := pyMinBy_sorted_spec (fun kf => pyAbs (kf - (T - S.start)))
    S.keyframes hsort n hn
  refine ⟨n, snapChoice S.keyframes (T - S.start) pe n,
    ⟨hspec.1, hspec.2⟩, snap_to_keyframe_in_range S T pe h1' h2' n hn, ?_, ?_, ?_⟩
  · intro hc
    constructor
    · intro m hm
      cases hmax : pyMax (S.keyframes.filter
          (fun kf => decide (kf ≤ T - S.start))) with
      | none =>
        have hnil := (pyMax_eq_none_iff _).mp hmax
        have : m ∈ S.keyframes.filter (fun kf => decide (kf ≤ T - S.start)) :=
          List.mem_filter.2 ⟨hm.1, decide_eq_true hm.2.1⟩
        rw [hnil] at this
        exact absurd this (List.not_mem_nil m)
      | some mx =>
        have hx := pyMax_spec _ mx hmax
        have hoff : snapChoice S.keyframes (T - S.start) pe n = mx := by
          unfold snapChoice
          rw [if_pos hc, hmax]
        rw [hoff]
        have hmf : m ∈ S.keyframes.filter (fun kf => decide (kf ≤ T - S.start)) :=
          List.mem_filter.2 ⟨hm.1, decide_eq_true hm.2.1⟩
        have hmxle : mx ≤ T - S.start :=
          of_decide_eq_true (List.mem_filter.1 hx.1).2
        exact le_antisymm (hm.2.2 mx (List.mem_of_mem_filter hx.1) hmxle)
          (hx.2 m hmf)
    · intro hall
      have hfilter : S.keyframes.filter (fun kf => decide (kf ≤ T - S.start)) = [] := by
        rw [List.filter_eq_nil_iff]
        intro k hk
        simpa using hall k hk
      unfold snapChoice
      rw [if_pos hc, hfilter]
      rfl
  · intro hc
    have hc1 : ¬ (pe = true ∧ T - S.start < n) := by
      rintro ⟨hpe, _⟩
      rw [hpe] at hc
      exact Bool.true_eq_false.mp hc.1
    constructor
    · intro m hm
      cases hmin : pyMin (S.keyframes.filter
          (fun kf => decide (T - S.start ≤ kf))) with
      | none =>
        have hnil := (pyMin_eq_none_iff _).mp hmin
        have : m ∈ S.keyframes.filter (fun kf => decide (T - S.start ≤ kf)) :=
          List.mem_filter.2 ⟨hm.1, decide_eq_true hm.2.1⟩
        rw [hnil] at this
        exact absurd this (List.not_mem_nil m)
      | some mx =>
        have hx := pyMin_spec _ mx hmin
        have hoff : snapChoice S.keyframes (T - S.start) pe n = mx := by
          unfold snapChoice
          rw [if_neg hc1, if_pos hc, hmin]
        rw [hoff]
        have hmf : m ∈ S.keyframes.filter (fun kf => decide (T - S.start ≤ kf)) :=
          List.mem_filter.2 ⟨hm.1, decide_eq_true hm.2.1⟩
        have hmxge : T - S.start ≤ mx :=
          of_decide_eq_true (List.mem_filter.1 hx.1).2
        exact le_antisymm (hx.2 m hmf)
          (hm.2.2 mx (List.mem_of_mem_filter hx.1) hmxge)
    · intro hall
      have hfilter : S.keyframes.filter (fun kf => decide (T - S.start ≤ kf)) = [] := by
        rw [List.filter_eq_nil_iff]
        intro k hk
        simpa using hall k hk
      unfold snapChoice
      rw [if_neg hc1, if_pos hc, hfilter]
      rfl
  · intro hc1 hc2
    unfold snapChoice
    rw [if_neg hc1, if_neg hc2]

/-- C5 witness: the selection characterization applied to the first default
segment of `camera1` at the in-range timestamp 13 with `prefer_earlier`. -/
theorem C5_witness :
    ∃ n off,
      is_nearest_tie_smaller [(0 : ℚ), 5, 10, 15, 20, 25, 30] (13 - 0) n ∧
      snap_to_keyframe ⟨"mock_cameras/test.mp4", 0, 30, [0, 5, 10, 15, 20, 25, 30]⟩
        13 true = .ok ((0 : ℚ) + off, off) ∧
      ((true = true ∧ (13 : ℚ) - 0 < n) →
        (∀ m, isGreatestLe [(0 : ℚ), 5, 10, 15, 20, 25, 30] (13 - 0) m → off = m) ∧
        ((∀ k ∈ [(0 : ℚ), 5, 10, 15, 20, 25, 30], ¬ k ≤ 13 - 0) → off = n)) ∧
      ((true = false ∧ n < (13 : ℚ) - 0) →
        (∀ m, isLeastGe [(0 : ℚ), 5, 10, 15, 20, 25, 30] (13 - 0) m → off = m) ∧
        ((∀ k ∈ [(0 : ℚ), 5, 10, 15, 20, 25, 30], ¬ (13 : ℚ) - 0 ≤ k) → off = n)) ∧
      (¬ (true = true ∧ (13 : ℚ) - 0 < n) → ¬ (true = false ∧ n < (13 : ℚ) - 0) →
        off = n) :=
  C5_nearest_selection ⟨"mock_cameras/test.mp4", 0, 30, [0, 5, 10, 15, 20, 25, 30]⟩
    13 true (by decide) (by decide) (by decide) (by decide)

/-! ### Job-table lemmas and the Job Coordinator claims -/

theorem update_job_status_absent (jobs : List (String × ClipJob)) (now : ℚ)
    (clip_id : String) (status : ClipStatus) (download_url : Option String)
    (error_message : Option String) (h : dictGet jobs clip_id = none) :
    update_job_status jobs now clip_id status download_url error_message =
      (jobs, []) := by
  unfold update_job_status
  rw [h]

theorem jobStatus_update_self (jobs : List (String × ClipJob)) (now : ℚ)
    (clip_id : String) (status : ClipStatus) (download_url : Option String)
    (error_message : Option String) (j : ClipJob)
    (h : dictGet jobs clip_id = some j) :
    jobStatus (update_job_status jobs now clip_id status download_url
      error_message).1 clip_id = some status := by
  unfold update_job_status jobStatus
  rw [h]
  cases download_url <;> cases error_message <;> dsimp only <;> split_ifs <;>
    simp [dictGet_dictSet_self jobs clip_id j h]

theorem jobStatus_update_other (jobs : List (String × ClipJob)) (now : ℚ)
    (clip_id : String) (status : ClipStatus) (download_url : Option String)
    (error_message : Option String) (id' : String) (h : id' ≠ clip_id) :
    jobStatus (update_job_status jobs now clip_id status download_url
      error_message).1 id' = jobStatus jobs id' := by
  unfold update_job_status jobStatus
  cases hg : dictGet jobs clip_id with
  | none => rfl
  | some j =>
    cases download_url <;> cases error_message <;> dsimp only <;> split_ifs <;>
      simp [dictGet_dictSet_ne clip_id id' h]

/-- C9: `update_job_status` on a clip id that is not in the job table is a
silent no-op: no error, no new entry, every existing record untouched, and
no completion metric emitted. -/
theorem C9_update_unknown_id_noop (jobs : List (String × ClipJob)) (now : ℚ)
    (clip_id : String) (status : ClipStatus) (download_url : Option String)
    (error_message : Option String) (h : dictGet jobs clip_id = none) :
    update_job_status jobs now clip_id status download_url error_message =
      (jobs, []) :=
  update_job_status_absent jobs now clip_id status download_url error_message h

/-- C9 witness: updating a one-job table under an unknown id changes
nothing. -/
theorem C9_witness :
    update_job_status
      [("job-1", { clip_id := "job-1", status := ClipStatus.pending,
                   camera_id := "camera1", start_time := 85, end_time := 105,
                   download_url := none, error_message := none,
                   created_at := 100, completed_at := none })]
      200 "job-2" ClipStatus.done (some "/videos/a.mp4") none =
      ([("job-1", { clip_id := "job-1", status := ClipStatus.pending,
                    camera_id := "camera1", start_time := 85, end_time := 105,
                    download_url := none, error_message := none,
                    created_at := 100, completed_at := none })], []) :=
  C9_update_unknown_id_noop _ 200 "job-2" ClipStatus.done
    (some "/videos/a.mp4") none (by decide)

theorem jobStatus_append_some (jobs l : List (String × ClipJob)) (id : String)
    (st : ClipStatus) (h : jobStatus jobs id = some st) :
    jobStatus (jobs ++ l) id = some st := by
  unfold jobStatus at h ⊢
  cases hg : dictGet jobs id with
  | none => rw [hg] at h; exact Option.noConfusion h
  | some j => rw [dictGet_append_some _ _ _ _ hg]; rw [hg] at h; exact h

theorem jobStatus_append_of_none (jobs l : List (String × ClipJob)) (id : String)
    (h : dictGet jobs id = none) :
    jobStatus (jobs ++ l) id = jobStatus l id := by
  unfold jobStatus
  rw [dictGet_append_none _ _ _ h]

theorem statusStepOk_terminal_frozen (a b : Option ClipStatus)
    (h : statusStepOk a b)
    (ha : a = some ClipStatus.done ∨ a = some ClipStatus.failed) : b = a := by
  rcases h with h | ⟨h1, _⟩ | ⟨h1, _⟩ | ⟨h1, _⟩
  · exact h.symm
  all_goals rcases ha with ha | ha <;> rw [ha] at h1 <;> exact absurd h1 (by decide)

theorem step_statusOk_and_inv (s s' : CoordState) (hinv : CoordInv s)
    (hstep : Step s s') :
    CoordInv s' ∧ ∀ id, statusStepOk (statusOf s id) (statusOf s' id) := by
  obtain ⟨hq, hf, hnd⟩ := hinv
  cases hstep with
  | submit clip_id camera_id timestamp now fresh =>
    have hnew : statusOf (submit_job s clip_id camera_id timestamp now) clip_id =
        some ClipStatus.pending := by
      unfold submit_job statusOf
      dsimp only
      rw [jobStatus_append_of_none _ _ _ fresh]
      simp [jobStatus, dictGet]
    have hold : ∀ id, id ≠ clip_id →
        statusOf (submit_job s clip_id camera_id timestamp now) id =
          statusOf s id := by
      intro id hid
      unfold submit_job statusOf
      dsimp only
      cases hg : dictGet s.jobs id with
      | none =>
        rw [jobStatus_append_of_none _ _ _ hg]
        simp [jobStatus, dictGet, Ne.symm hid]
        rw [hg]
        rfl
      | some j =>
        have : jobStatus s.jobs id = some j.status := by
          unfold jobStatus; rw [hg]; rfl
        rw [jobStatus_append_some _ _ _ _ this]
        exact this.symm
    have hfreshst : statusOf s clip_id = none := by
      unfold statusOf jobStatus
      rw [fresh]
      rfl
    have hcnot : clip_id ∉ s.queue ++ s.inflight := by
      intro hmem
      rcases List.mem_append.mp hmem with hmem | hmem
      · exact absurd (hq _ hmem) (by rw [hfreshst]; exact fun h => Option.noConfusion h)
      · exact absurd (hf _ hmem) (by rw [hfreshst]; exact fun h => Option.noConfusion h)
    refine ⟨⟨?_, ?_, ?_⟩, ?_⟩
    · intro id hid
      rcases List.mem_append.mp hid with hid | hid
      · have hne : id ≠ clip_id := fun h =>
          hcnot (List.mem_append.mpr (Or.inl (h ▸ hid)))
        rw [hold id hne]
        exact hq id hid
      · have : id = clip_id := by simpa using hid
        rw [this]
        exact hnew
    · intro id hid
      have hne : id ≠ clip_id := fun h =>
        hcnot (List.mem_append.mpr (Or.inr (h ▸ hid)))
      rw [hold id hne]
      exact hf id hid
    · show ((s.queue ++ [clip_id]) ++ s.inflight).Nodup
      rw [List.append_assoc]
      have hperm : List.Perm (s.queue ++ ([clip_id] ++ s.inflight))
          (clip_id :: (s.queue ++ s.inflight)) := List.perm_middle
      exact hperm.nodup_iff.mpr (List.nodup_cons.mpr ⟨hcnot, hnd⟩)
    · intro id
      by_cases hid : id = clip_id
      · subst hid
        rw [hfreshst, hnew]
        exact Or.inr (Or.inl ⟨rfl, rfl⟩)
      · rw [hold id hid]
        exact Or.inl rfl
  | worker_begin clip_id rest now hqe j hj =>
    have hcq : clip_id ∈ s.queue := by rw [hqe]; exact List.mem_cons_self _ _
    have hpend : statusOf s clip_id = some ClipStatus.pending := hq _ hcq
    have hnd' : (clip_id :: (rest ++ s.inflight)).Nodup := by
      have : s.queue ++ s.inflight = clip_id :: (rest ++ s.inflight) := by
        rw [hqe]; rfl
      rw [← this]; exact hnd
    have hcnot : clip_id ∉ rest ++ s.inflight := (List.nodup_cons.mp hnd').1
    have hnew : statusOf
        (CoordState.mk (update_job_status s.jobs now clip_id
          ClipStatus.processing none none).1 rest (clip_id :: s.inflight))
        clip_id = some ClipStatus.processing :=
      jobStatus_update_self s.jobs now clip_id ClipStatus.processing none none j hj
    have hold : ∀ id, id ≠ clip_id → statusOf
        (CoordState.mk (update_job_status s.jobs now clip_id
          ClipStatus.processing none none).1 rest (clip_id :: s.inflight))
        id = statusOf s id :=
      fun id hid =>
        jobStatus_update_other s.jobs now clip_id ClipStatus.processing
          none none id hid
    refine ⟨⟨?_, ?_, ?_⟩, ?_⟩
    · intro id hid
      have hne : id ≠ clip_id := fun h => by
        subst h
        exact hcnot (List.mem_append.mpr (Or.inl hid))
      rw [hold id hne]
      exact hq id (by rw [hqe]; exact List.mem_cons_of_mem _ hid)
    · intro id hid
      rcases List.mem_cons.mp hid with hid | hid
      · rw [hid]; exact hnew
      · have hid' : id ∈ s.inflight := hid
        have hne : id ≠ clip_id := fun h => by
          subst h
          exact hcnot (List.mem_append.mpr (Or.inr hid'))
        rw [hold id hne]
        exact hf id hid'
    · show (rest ++ clip_id :: s.inflight).Nodup
      exact (List.perm_middle).nodup_iff.mpr hnd'
    · intro id
      by_cases hid : id = clip_id
      · subst hid
        rw [hpend, hnew]
        exact Or.inr (Or.inr (Or.inl ⟨rfl, rfl⟩))
      · rw [hold id hid]
        exact Or.inl rfl
  | worker_skip clip_id rest hqe hj =>
    have hcq : clip_id ∈ s.queue := by rw [hqe]; exact List.mem_cons_self _ _
    have hpend := hq _ hcq
    unfold statusOf jobStatus at hpend
    rw [hj] at hpend
    exact absurd hpend (by exact fun h => Option.noConfusion h)
  | worker_finish clip_id now success result hin =>
    have hproc : statusOf s clip_id = some ClipStatus.processing := hf _ hin
    obtain ⟨j, hj⟩ : ∃ j, dictGet s.jobs clip_id = some j := by
      unfold statusOf jobStatus at hproc
      cases hg : dictGet s.jobs clip_id with
      | none => rw [hg] at hproc; exact Option.noConfusion hproc
      | some j => exact ⟨j, rfl⟩
    have hndq : s.queue.Disjoint s.inflight := (List.nodup_append.mp hnd).2.2
    have hndi : s.inflight.Nodup := (List.nodup_append.mp hnd).2.1
    have hnew : statusOf
        (CoordState.mk (update_job_status s.jobs now clip_id
          (if success then ClipStatus.done else ClipStatus.failed)
          (if success then some result else none)
          (if success then none else some result)).1
          s.queue (s.inflight.erase clip_id))
        clip_id =
        some (if success then ClipStatus.done else ClipStatus.failed) :=
      jobStatus_update_self s.jobs now clip_id _ _ _ j hj
    have hold : ∀ id, id ≠ clip_id → statusOf
        (CoordState.mk (update_job_status s.jobs now clip_id
          (if success then ClipStatus.done else ClipStatus.failed)
          (if success then some result else none)
          (if success then none else some result)).1
          s.queue (s.inflight.erase clip_id))
        id = statusOf s id :=
      fun id hid => jobStatus_update_other s.jobs now clip_id _ _ _ id hid
    refine ⟨⟨?_, ?_, ?_⟩, ?_⟩
    · intro id hid
      have hne : id ≠ clip_id := fun h => by
        subst h
        exact hndq hid hin
      rw [hold id hne]
      exact hq id hid
    · intro id hid
      have hid' := (hndi.mem_erase_iff.mp hid)
      rw [hold id hid'.1]
      exact hf id hid'.2
    · show (s.queue ++ s.inflight.erase clip_id).Nodup
      exact hnd.sublist ((s.inflight.erase_sublist clip_id).append_left s.queue)
    · intro id
      by_cases hid : id = clip_id
      · subst hid
        rw [hproc, hnew]
        refine Or.inr (Or.inr (Or.inr ⟨rfl, ?_⟩))
        cases success
        · exact Or.inr rfl
        · exact Or.inl rfl
      · rw [hold id hid]
        exact Or.inl rfl

theorem reachable_inv (s : CoordState) (h : Reachable s) : CoordInv s := by
  unfold Reachable at h
  induction h with
  | refl =>
    refine ⟨?_, ?_, ?_⟩ <;> simp [initState, CoordInv]
  | tail _ hstep ih =>
    exact (step_statusOk_and_inv _ _ ih hstep).1

/-- C4 (amended): for the transitions the coordinator actually performs —
`submit_job` of a fresh id, and the worker loop's `processing` /
terminal `update_job_status` calls on ids it dequeued or owns — every
observed per-job status change is along PENDING → PROCESSING → {DONE |
FAILED} and a terminal status never changes.  (`update_job_status` itself is
unguarded, so an interleaving containing arbitrary `update_job_status`
calls can produce any transition — see the counterexample.) -/
theorem C4_amended_monotone (s s' : CoordState) (hr : Reachable s)
    (hstep : Step s s') :
    (∀ id, statusStepOk (statusOf s id) (statusOf s' id)) ∧
    (∀ id, statusOf s id = some ClipStatus.done →
      statusOf s' id = some ClipStatus.done) ∧
    (∀ id, statusOf s id = some ClipStatus.failed →
      statusOf s' id = some ClipStatus.failed) := by
  have hok := (step_statusOk_and_inv s s' (reachable_inv s hr) hstep).2
  refine ⟨hok, ?_, ?_⟩
  · intro id hdone
    rw [statusStepOk_terminal_frozen _ _ (hok id) (Or.inl hdone)]
    exact hdone
  · intro id hfail
    rw [statusStepOk_terminal_frozen _ _ (hok id) (Or.inr hfail)]
    exact hfail

/-- C4 counterexample: the claim as stated quantifies over any interleaving
of worker steps and `update_job_status` calls, but `update_job_status` sets
the requested status with no guard on the current one: a job already DONE
regresses to PENDING when such a call arrives. -/
theorem C4_counterexample :
    jobStatus
      [("job-1", { clip_id := "job-1", status := ClipStatus.done,
                   camera_id := "camera1", start_time := 85, end_time := 105,
                   download_url := some "/videos/a.mp4", error_message := none,
                   created_at := 100, completed_at := some 150 })]
      "job-1" = some ClipStatus.done ∧
    jobStatus
      (update_job_status
        [("job-1", { clip_id := "job-1", status := ClipStatus.done,
                     camera_id := "camera1", start_time := 85, end_time := 105,
                     download_url := some "/videos/a.mp4", error_message := none,
                     created_at := 100, completed_at := some 150 })]
        300 "job-1" ClipStatus.pending none none).1
      "job-1" = some ClipStatus.pending := by
  constructor
  · rfl
  · rfl

/-- C4 witness: the amended monotonicity at the first submission from the
initial state. -/
theorem C4_witness :
    (∀ id, statusStepOk (statusOf initState id)
      (statusOf (submit_job initState "job-1" "camera1" 100 100) id)) ∧
    (∀ id, statusOf initState id = some ClipStatus.done →
      statusOf (submit_job initState "job-1" "camera1" 100 100) id =
        some ClipStatus.done) ∧
    (∀ id, statusOf initState id = some ClipStatus.failed →
      statusOf (submit_job initState "job-1" "camera1" 100 100) id =
        some ClipStatus.failed) :=
  C4_amended_monotone initState _ Relation.ReflTransGen.refl
    (Step.submit initState "job-1" "camera1" 100 100 rfl)

/-! ### Assembly Planner claims -/

/-- C7: with exactly one candidate, the planner always builds the single-file
trim command with `start_offset = max(0, window_start − candidate.start)` and
`duration = window_end − max(window_start, candidate.start)`; when the
candidate fully contains the window these are `window_start − candidate.start`
and `window_end − window_start`, both non-negative. -/
theorem C7_single_candidate_trim (c : ClipInfo) (ws we : ℚ) (out : String)
    (oc : FfmpegOutcome) :
    ((_process_mediamtx_clips [c] ws we out oc).cmd =
      some (FfmpegCmd.trim (pyMax2 0 (ws - c.start_time)) c.file_path
        (we - pyMax2 ws c.start_time) out)) ∧
    (c.start_time ≤ ws → ws ≤ we →
      pyMax2 0 (ws - c.start_time) = ws - c.start_time ∧
      we - pyMax2 ws c.start_time = we - ws ∧
      0 ≤ ws - c.start_time ∧ 0 ≤ we - ws) := by
  constructor
  · cases oc <;> rfl
  · intro h1 h2
    have hmax : pyMax2 ws c.start_time = ws := by
      unfold pyMax2
      rw [if_neg (not_lt.2 h1)]
    have hmax0 : pyMax2 0 (ws - c.start_time) = ws - c.start_time := by
      unfold pyMax2
      by_cases h : (0 : ℚ) < ws - c.start_time
      · rw [if_pos h]
      · rw [if_neg h]
        have h0 : 0 ≤ ws - c.start_time := by linarith
        linarith [not_lt.1 h]
    exact ⟨hmax0, by rw [hmax], by linarith, by linarith⟩

/-- C7 witness: a candidate `[0, 30]` fully containing the window `[10, 20]`. -/
theorem C7_witness :
    ((_process_mediamtx_clips [⟨"/clips/a.mp4", "a.mp4", 0, 30, 30, 1000⟩]
        10 20 "videos/out.mp4" (.completed 0)).cmd =
      some (FfmpegCmd.trim (pyMax2 0 (10 - 0)) "/clips/a.mp4"
        (20 - pyMax2 10 0) "videos/out.mp4")) ∧
    ((0 : ℚ) ≤ 10 → (10 : ℚ) ≤ 20 →
      pyMax2 0 ((10 : ℚ) - 0) = 10 - 0 ∧
      (20 : ℚ) - pyMax2 10 0 = 20 - 10 ∧
      (0 : ℚ) ≤ 10 - 0 ∧ (0 : ℚ) ≤ 20 - 10) :=
  C7_single_candidate_trim ⟨"/clips/a.mp4", "a.mp4", 0, 30, 30, 1000⟩
    10 20 "videos/out.mp4" (.completed 0)

/-- C2: the claim is contradicted by the code.  With two candidates, the
concat manifest is removed only when `subprocess.run` returns (exit 0 or a
non-zero code); the `TimeoutExpired` and launch-failure handlers return
before the removal at lines 128–132, leaving the scratch file on disk. -/
theorem C2_manifest_retention :
    ((_process_mediamtx_clips
        [⟨"/clips/a.mp4", "a.mp4", 0, 20, 20, 100⟩,
         ⟨"/clips/b.mp4", "b.mp4", 20, 40, 20, 100⟩]
        5 25 "videos/out.mp4" .timeout).manifest_after = true) ∧
    ((_process_mediamtx_clips
        [⟨"/clips/a.mp4", "a.mp4", 0, 20, 20, 100⟩,
         ⟨"/clips/b.mp4", "b.mp4", 20, 40, 20, 100⟩]
        5 25 "videos/out.mp4"
        (.launchFailure "FileNotFoundError: ffmpeg")).manifest_after = true) ∧
    ((_process_mediamtx_clips
        [⟨"/clips/a.mp4", "a.mp4", 0, 20, 20, 100⟩,
         ⟨"/clips/b.mp4", "b.mp4", 20, 40, 20, 100⟩]
        5 25 "videos/out.mp4" (.completed 0)).manifest_after = false) ∧
    ((_process_mediamtx_clips
        [⟨"/clips/a.mp4", "a.mp4", 0, 20, 20, 100⟩,
         ⟨"/clips/b.mp4", "b.mp4", 20, 40, 20, 100⟩]
        5 25 "videos/out.mp4" (.completed 1)).manifest_after = false) :=
  ⟨rfl, rfl, rfl, rfl⟩

theorem proc_fail_of_bad_outcome (clips : List ClipInfo) (ws we : ℚ)
    (out : String) (oc : FfmpegOutcome)
    (hbad : oc = .timeout ∨ (∃ m, oc = .launchFailure m) ∨
      ∃ rc, oc = .completed rc ∧ rc ≠ 0) :
    (_process_mediamtx_clips clips ws we out oc).success = false := by
  rcases hbad with h | ⟨m, h⟩ | ⟨rc, h, hrc⟩ <;> subst h <;>
    match clips with
    | [] => rfl
    | [c] => first
      | rfl
      | exact decide_eq_false hrc
    | c1 :: c2 :: rest => first
      | rfl
      | exact decide_eq_false hrc

/-- C8: `process_clip` always returns an explicit `(success, reason)` pair:
a transcoder non-zero exit, the 300-second timeout, and a launch failure
each produce `(False, "FFmpeg processing failed")`; an exception raised
inside the body (e.g. by `find_clips`) is caught by the outer handler and
returned as `(False, str(e))`; an empty discovery result is an explicit
not-found failure.  No input makes the function raise to its caller. -/
theorem C8_process_clip_explicit_outcome (job : ClipJob) (stamp : String)
    (clips : List ClipInfo) (hne : clips ≠ []) :
    (∀ rc, rc ≠ 0 → process_clip job (.ok clips) (.completed rc) stamp =
      (false, "FFmpeg processing failed")) ∧
    (process_clip job (.ok clips) .timeout stamp =
      (false, "FFmpeg processing failed")) ∧
    (∀ msg, process_clip job (.ok clips) (.launchFailure msg) stamp =
      (false, "FFmpeg processing failed")) ∧
    (∀ e oc, process_clip job (.error e) oc stamp = (false, e)) ∧
    (∀ oc, process_clip job (.ok []) oc stamp =
      (false, "No clips found for camera " ++ job.camera_id ++
        " in time range")) := by
  refine ⟨?_, ?_, ?_, ?_, ?_⟩
  · intro rc hrc
    have hs := proc_fail_of_bad_outcome clips job.start_time job.end_time
      ("videos/" ++ (job.camera_id ++ "_" ++ stamp ++ "_" ++ job.clip_id ++ ".mp4"))
      (.completed rc) (Or.inr (Or.inr ⟨rc, rfl, hrc⟩))
    simp [process_clip, process_clip_body, hne, hs]
  · have hs := proc_fail_of_bad_outcome clips job.start_time job.end_time
      ("videos/" ++ (job.camera_id ++ "_" ++ stamp ++ "_" ++ job.clip_id ++ ".mp4"))
      .timeout (Or.inl rfl)
    simp [process_clip, process_clip_body, hne, hs]
  · intro msg
    have hs := proc_fail_of_bad_outcome clips job.start_time job.end_time
      ("videos/" ++ (job.camera_id ++ "_" ++ stamp ++ "_" ++ job.clip_id ++ ".mp4"))
      (.launchFailure msg) (Or.inr (Or.inl ⟨msg, rfl⟩))
    simp [process_clip, process_clip_body, hne, hs]
  · intro e oc
    rfl
  · intro oc
    rfl

/-- C8 witness: every failure shape at a concrete job. -/
theorem C8_witness :
    (∀ rc, rc ≠ 0 →
      process_clip
        { clip_id := "job-1", status := ClipStatus.processing,
          camera_id := "camera1", start_time := 85, end_time := 105,
          download_url := none, error_message := none,
          created_at := 100, completed_at := none }
        (.ok [⟨"/clips/a.mp4", "a.mp4", 80, 110, 30, 1000⟩]) (.completed rc)
        "20250825_180000" = (false, "FFmpeg processing failed")) ∧
    (process_clip
        { clip_id := "job-1", status := ClipStatus.processing,
          camera_id := "camera1", start_time := 85, end_time := 105,
          download_url := none, error_message := none,
          created_at := 100, completed_at := none }
        (.ok [⟨"/clips/a.mp4", "a.mp4", 80, 110, 30, 1000⟩]) .timeout
        "20250825_180000" = (false, "FFmpeg processing failed")) ∧
    (∀ msg, process_clip
        { clip_id := "job-1", status := ClipStatus.processing,
          camera_id := "camera1", start_time := 85, end_time := 105,
          download_url := none, error_message := none,
          created_at := 100, completed_at := none }
        (.ok [⟨"/clips/a.mp4", "a.mp4", 80, 110, 30, 1000⟩]) (.launchFailure msg)
        "20250825_180000" = (false, "FFmpeg processing failed")) ∧
    (∀ e oc, process_clip
        { clip_id := "job-1", status := ClipStatus.processing,
          camera_id := "camera1", start_time := 85, end_time := 105,
          download_url := none, error_message := none,
          created_at := 100, completed_at := none }
        (.error e) oc "20250825_180000" = (false, e)) ∧
    (∀ oc, process_clip
        { clip_id := "job-1", status := ClipStatus.processing,
          camera_id := "camera1", start_time := 85, end_time := 105,
          download_url := none, error_message := none,
          created_at := 100, completed_at := none }
        (.ok []) oc "20250825_180000" =
        (false, "No clips found for camera " ++ "camera1" ++ " in time range")) :=
  C8_process_clip_explicit_outcome
    { clip_id := "job-1", status := ClipStatus.processing,
      camera_id := "camera1", start_time := 85, end_time := 105,
      download_url := none, error_message := none,
      created_at := 100, completed_at := none }
    "20250825_180000" [⟨"/clips/a.mp4", "a.mp4", 80, 110, 30, 1000⟩]
    (by decide)

/-! ### Segment Discovery claims -/

/-- C3: the claim is contradicted by the code.  Every per-file read in
`_extract_clip_info` is wrapped in a handler except the final
`os.path.getsize` at line 137: a file whose size read fails (deleted between
enumeration and this call, or permission denied) raises out of the scan loop
and aborts `find_clips` for the remaining files.  The first conjunct shows
the handled failures (filename parse miss plus a failing mtime stat, and a
failing duration stat) are indeed skipped with the scan continuing; the
second shows the one unhandled failure aborting the whole scan and losing
the other file's qualifying candidate. -/
theorem C3_scan_aborts_on_getsize_failure :
    (find_clips
      [⟨"/clips/camera1/c.mp4", "c.mp4", none, .error "PermissionError",
          .ok 0, .ok 0⟩,
        ⟨"/clips/camera1/a.mp4", "a.mp4", some 100, .ok 100,
          .error "PermissionError", .ok 1048576⟩]
      90 200 =
      .ok [⟨"/clips/camera1/a.mp4", "a.mp4", 100, 120, 20, 1048576⟩]) ∧
    (find_clips
      [⟨"/clips/camera1/b.mp4", "b.mp4", some 110, .ok 110,
          .error "FileNotFoundError", .error "FileNotFoundError: b.mp4"⟩,
        ⟨"/clips/camera1/a.mp4", "a.mp4", some 100, .ok 100,
          .error "PermissionError", .ok 1048576⟩]
      90 200 = .error "FileNotFoundError: b.mp4") := by
  constructor
  · rfl
  · rfl

theorem scan_files_ok_mem (files : List FsFile) (ws we : ℚ)
    (cl : List ClipInfo) (h : scan_files files ws we = .ok cl) :
    ∀ ci, ci ∈ cl ↔ ∃ f ∈ files, _extract_clip_info f ws we = .ok (some ci) := by
  induction files generalizing cl with
  | nil =>
    have : cl = [] := by
      unfold scan_files at h
      exact (Except.ok.inj h).symm
    subst this
    simp
  | cons f rest ih =>
    unfold scan_files at h
    cases he : _extract_clip_info f ws we with
    | error e => rw [he] at h; exact Except.noConfusion h
    | ok o =>
      rw [he] at h
      cases o with
      | none =>
        intro ci
        rw [ih cl h ci]
        constructor
        · rintro ⟨g, hg, hx⟩
          exact ⟨g, List.mem_cons_of_mem f hg, hx⟩
        · rintro ⟨g, hg, hx⟩
          rcases List.mem_cons.mp hg with hgf | hg
          · subst hgf
            rw [he] at hx
            exact Option.noConfusion (Except.ok.inj hx)
          · exact ⟨g, hg, hx⟩
      | some ci0 =>
        cases hrest : scan_files rest ws we with
        | error e => rw [hrest] at h; exact Except.noConfusion h
        | ok cl0 =>
          rw [hrest] at h
          have hcl : cl = ci0 :: cl0 := (Except.ok.inj h).symm
          subst hcl
          intro ci
          simp only [List.mem_cons]
          rw [ih cl0 hrest ci]
          constructor
          · rintro (rfl | ⟨g, hg, hx⟩)
            · exact ⟨f, Or.inl rfl, he⟩
            · exact ⟨g, Or.inr hg, hx⟩
          · rintro ⟨g, hg, hx⟩
            rcases hg with hgf | hg
            · subst hgf
              rw [he] at hx
              exact Or.inl (Option.some.inj (Except.ok.inj hx)).symm
            · exact Or.inr ⟨g, hg, hx⟩

/-- C6: the overlap test of both the Segment Index and Segment Discovery is
inclusive on both boundaries — a record qualifies iff
`start ≤ window_end ∧ window_start ≤ end` — and both return their results
sorted by start time; a window `[10,20]` does overlap a segment `[20,30]`
and does not overlap a segment `[0,9]`. -/
theorem C6_inclusive_overlap_sorted :
    (∀ (bd : List (String × List BufferSegment)) (cam : String) (ws we : ℚ)
        (seg : BufferSegment),
      seg ∈ find_segments bd cam ws we ↔
        ∃ segs, dictGet bd cam = some segs ∧ seg ∈ segs ∧
          seg.start ≤ we ∧ ws ≤ seg.«end») ∧
    (∀ (bd : List (String × List BufferSegment)) (cam : String) (ws we : ℚ),
      List.Sorted segLE (find_segments bd cam ws we)) ∧
    (∀ (f : FsFile) (ws we cs : ℚ) (sz : Nat),
      clip_start_of f = some cs → f.getsize = .ok sz →
      ((ws ≤ cs + estimate_duration f.st_size ∧ cs ≤ we) →
        _extract_clip_info f ws we = .ok (some
          ⟨f.file_path, f.filename, cs, cs + estimate_duration f.st_size,
            estimate_duration f.st_size, sz⟩)) ∧
      (¬ (ws ≤ cs + estimate_duration f.st_size ∧ cs ≤ we) →
        _extract_clip_info f ws we = .ok none)) ∧
    (∀ (files : List FsFile) (ws we : ℚ) (l : List ClipInfo),
      find_clips files ws we = .ok l →
      List.Sorted clipLE l ∧
      (∀ ci, ci ∈ l ↔ ∃ f ∈ files, _extract_clip_info f ws we = .ok (some ci))) ∧
    ((⟨"seg.mp4", 20, 30, [0]⟩ : BufferSegment) ∈
      find_segments [("cam", [⟨"seg.mp4", 20, 30, [0]⟩])] "cam" 10 20) ∧
    ((⟨"seg.mp4", 0, 9, [0]⟩ : BufferSegment) ∉
      find_segments [("cam", [⟨"seg.mp4", 0, 9, [0]⟩])] "cam" 10 20) := by
  refine ⟨?_, ?_, ?_, ?_, ?_, ?_⟩
  · intro bd cam ws we seg
    unfold find_segments
    cases hg : dictGet bd cam with
    | none =>
      simp
    | some segs =>
      simp only [List.mem_insertionSort, List.mem_filter, Bool.and_eq_true,
        decide_eq_true_eq, Option.some.injEq]
      constructor
      · rintro ⟨hmem, h1, h2⟩
        exact ⟨segs, rfl, hmem, h1, h2⟩
      · rintro ⟨segs', heq, hmem, h1, h2⟩
        subst heq
        exact ⟨hmem, h1, h2⟩
  · intro bd cam ws we
    unfold find_segments
    cases dictGet bd cam with
    | none => exact List.sorted_nil
    | some segs => exact List.sorted_insertionSort segLE _
  · intro f ws we cs sz hcs hsz
    constructor
    · intro hov
      unfold _extract_clip_info
      rw [hcs]
      dsimp only
      rw [if_pos hov, hsz]
    · intro hov
      unfold _extract_clip_info
      rw [hcs]
      dsimp only
      rw [if_neg hov]
  · intro files ws we l h
    unfold find_clips at h
    cases hs : scan_files files ws we with
    | error e => rw [hs] at h; exact Except.noConfusion h
    | ok cl =>
      rw [hs] at h
      have hl : l = List.insertionSort clipLE cl := (Except.ok.inj h).symm
      subst hl
      refine ⟨List.sorted_insertionSort clipLE cl, ?_⟩
      intro ci
      rw [List.mem_insertionSort]
      exact scan_files_ok_mem files ws we cl hs ci
  · decide
  · decide

/-- C6 witness: the membership characterization discharged on a segment
`[15,25]` qualifying for the window `[10,20]`, and the candidate-extraction
characterization discharged on a concrete readable file. -/
theorem C6_witness :
    ((⟨"seg.mp4", 15, 25, [0]⟩ : BufferSegment) ∈
      find_segments [("cam", [⟨"seg.mp4", 15, 25, [0]⟩])] "cam" 10 20) ∧
    (_extract_clip_info
      ⟨"/clips/camera1/a.mp4", "a.mp4", some 100, .ok 100, .error "E", .ok 7⟩
      90 200 = .ok (some ⟨"/clips/camera1/a.mp4", "a.mp4", 100, 100 + 20, 20, 7⟩)) :=
  ⟨(C6_inclusive_overlap_sorted.1 [("cam", [⟨"seg.mp4", 15, 25, [0]⟩])]
      "cam" 10 20 ⟨"seg.mp4", 15, 25, [0]⟩).mpr
    ⟨[⟨"seg.mp4", 15, 25, [0]⟩], by decide, by decide, by decide, by decide⟩,
   by
    have h := ((C6_inclusive_overlap_sorted.2.2.1
      ⟨"/clips/camera1/a.mp4", "a.mp4", some 100, .ok 100, .error "E", .ok 7⟩
      90 200 100 7 rfl rfl).1 (by decide))
    exact h⟩

example :
    snap_to_keyframe ⟨"mock_cameras/test.mp4", 0, 30, [0, 5, 10, 15, 20, 25, 30]⟩
      12 true = .ok (10, 10) := by decide

example :
    snap_to_keyframe ⟨"mock_cameras/test.mp4", 0, 30, [0, 5, 10, 15, 20, 25, 30]⟩
      13 true = .ok (10, 10) := by decide

example :
    snap_to_keyframe ⟨"mock_cameras/test.mp4", 0, 30, [0, 5, 10, 15, 20, 25, 30]⟩
      13 false = .ok (15, 15) := by decide

example :
    snap_to_keyframe ⟨"mock_cameras/test.mp4", 0, 30, [0, 5, 10, 15, 20, 25, 30]⟩
      (-3) true = .ok (0, 0) := by decide

example :
    snap_to_keyframe ⟨"mock_cameras/test.mp4", 0, 30, [0, 5, 10, 15, 20, 25, 30]⟩
      45 true = .ok (30, 30) := by decide

end ClippingAPI
